import Mathlib

/-!
Verification development for the intercepting-gateway core of the
`windows-ai-agent-toolset` panel (source: `src/panel.py`).

The Python code is shallowly embedded: pure helpers become Lean functions,
the stateful registry / hub / ledger become explicit state passing, and the
threaded decision protocol becomes a small state machine.  Python `bytes`
and `str` values are both modelled as Lean `String` (the code only ever
treats them as UTF-8 text), JSON values as an inductive `Json` type, and
the result of Python's `json.loads` as `Option Json` (a `none` models a
parse failure).  Wall-clock readings are passed in explicitly.
-/

/-- JSON values as produced by Python's `json` module.  Numbers are modelled
as integers (no claim in this development depends on float payloads);
objects are insertion-ordered key/value lists, matching Python `dict`
semantics. -/
inductive Json where
| null
| bool (b : Bool)
| num (n : Int)
| str (s : String)
| arr (xs : List Json)
| obj (kvs : List (String × Json))
deriving Repr

/-- Python `d.get(k)` on an (insertion-ordered, duplicate-free) dict. -/
def objGet (kvs : List (String × Json)) (k : String) : Option Json :=
  match kvs with
  | [] => none
  | (k', v) :: rest => if k' = k then some v else objGet rest k

/-- Python `k in d`. -/
def objHas (kvs : List (String × Json)) (k : String) : Bool :=
  (objGet kvs k).isSome

/-- Python `d[k] = v`: replace the value in place if the key is present,
otherwise append the new key at the end (insertion order). -/
def objSet (kvs : List (String × Json)) (k : String) (v : Json) : List (String × Json) :=
  match kvs with
  | [] => [(k, v)]
  | (k', v') :: rest => if k' = k then (k', v) :: rest else (k', v') :: objSet rest k v

/-- Lowercase hex digits, 4-wide with leading zeros: the `XXXX` of a JSON
`\uXXXX` escape. -/
def hex4 (n : Nat) : String :=
  let ds := Nat.toDigits 16 n
  String.mk (List.replicate (4 - ds.length) '0' ++ ds)

/-- Escape of one character under `json.dumps(..., ensure_ascii=True)`. -/
def escJsonChar (c : Char) : String :=
  if c = '"' then "\\\""
  else if c = '\\' then "\\\\"
  else if c = '\n' then "\\n"
  else if c = '\r' then "\\r"
  else if c = '\t' then "\\t"
  else if c = (Char.ofNat 8) then "\\b"
  else if c = (Char.ofNat 12) then "\\f"
  else if c.toNat < 0x20 then "\\u" ++ hex4 c.toNat
  else if c.toNat < 0x7f then String.mk [c]
  else if c.toNat < 0x10000 then "\\u" ++ hex4 c.toNat
  else
    let v := c.toNat - 0x10000
    "\\u" ++ hex4 (0xd800 + v / 0x400) ++ "\\u" ++ hex4 (0xdc00 + v % 0x400)

/-- JSON string literal under `ensure_ascii=True`. -/
def quoteJson (s : String) : String :=
  "\"" ++ String.join (s.data.map escJsonChar) ++ "\""

mutual

/-- `json.dumps(obj, ensure_ascii=True, separators=(",", ":"))`, the
serialization used by `_json_bytes` and `State.broadcast` in `panel.py`. -/
def jsonDumps : Json → String
| .null => "null"
| .bool true => "true"
| .bool false => "false"
| .num n => toString n
| .str s => quoteJson s
| .arr xs => "[" ++ jsonDumpsList xs ++ "]"
| .obj kvs => "\x7b" ++ jsonDumpsObj kvs ++ "\x7d"

/-- Comma-joined serialization of array elements. -/
def jsonDumpsList : List Json → String
| [] => ""
| [x] => jsonDumps x
| x :: xs => jsonDumps x ++ "," ++ jsonDumpsList xs

/-- Comma-joined serialization of object members. -/
def jsonDumpsObj : List (String × Json) → String
| [] => ""
| [(k, v)] => quoteJson k ++ ":" ++ jsonDumps v
| (k, v) :: kvs => quoteJson k ++ ":" ++ jsonDumps v ++ "," ++ jsonDumpsObj kvs

end

mutual

/-- Python `repr` of a JSON-shaped value, used by `str()` on non-string
values (string escaping inside nested reprs is not modelled; no claim
exercises it). -/
def pyRepr : Json → String
| .null => "None"
| .bool true => "True"
| .bool false => "False"
| .num n => toString n
| .str s => "'" ++ s ++ "'"
| .arr xs => "[" ++ pyReprList xs ++ "]"
| .obj kvs => "\x7b" ++ pyReprObj kvs ++ "\x7d"

/-- Comma-joined reprs of list elements. -/
def pyReprList : List Json → String
| [] => ""
| [x] => pyRepr x
| x :: xs => pyRepr x ++ ", " ++ pyReprList xs

/-- Comma-joined reprs of dict members. -/
def pyReprObj : List (String × Json) → String
| [] => ""
| [(k, v)] => "'" ++ k ++ "': " ++ pyRepr v
| (k, v) :: kvs => "'" ++ k ++ "': " ++ pyRepr v ++ ", " ++ pyReprObj kvs

end

/-- Python `str(v)` for a JSON value: identity on strings, `repr` otherwise. -/
def pyStr : Json → String
| .str s => s
| v => pyRepr v

/-! ### Decimal rendering of machine integers (Python `str(int)` / f-strings) -/

/-- Little-endian decimal digits of `n`, with explicit fuel (the fuel `n`
itself always suffices); structural recursion keeps this kernel-reducible. -/
def natDigitsAux : Nat → Nat → List Nat
| 0, _ => []
| _ + 1, 0 => []
| fuel + 1, n + 1 => (n + 1) % 10 :: natDigitsAux fuel ((n + 1) / 10)

/-- Little-endian decimal digits of a positive `n` (empty for `0`). -/
def natDecDigits (n : Nat) : List Nat := natDigitsAux n n

/-- Python `str` of a non-negative machine integer: most-significant digit
first, `"0"` for zero.  Models the f-string conversions in `panel.py`. -/
def pyIntStr (n : Nat) : String :=
  if n = 0 then "0" else String.mk ((natDecDigits n).reverse.map Nat.digitChar)

/-- The correlation id minted per exchange at `panel.py:754`:
`req_id = f"{int(time.time() * 1000)}"`, a function of the arrival wall
clock in milliseconds alone. -/
def mkReqId (arrivalMs : Nat) : String := pyIntStr arrivalMs

/-! ### Continuity check (`_sst_check`, `panel.py:173-185`) -/

/-- Python `current.startswith(prev)`. -/
def pyStartswith (s p : String) : Bool := p.data.isPrefixOf s.data

/-- Index of the first differing character of two char lists, or the length
of the shorter one when one is a prefix of the other:
`next((i for i in range(ml) if prev[i] != current[i]), ml)`. -/
def mismatchAux : List Char → List Char → Nat
| a :: as', b :: bs => if a = b then mismatchAux as' bs + 1 else 0
| _, _ => 0

/-- The `pos` computed in the violation branch of `_sst_check`. -/
def mismatchPos (prev cur : String) : Nat := mismatchAux prev.data cur.data

/-- Result dictionary of `_sst_check` (`match` is a Lean keyword, hence
the primed field name). -/
structure SSTResult where
  verified : Bool
  match' : Bool
  prev_available : Bool
  detail : String
deriving Repr, DecidableEq

/-- `_sst_check(prev, current_user_text)`: the continuity check. -/
def _sst_check (prev : Option String) (current_user_text : String) : SSTResult :=
  match prev with
  | none => ⟨true, true, false, "First turn"⟩
  | some p =>
    if pyStartswith current_user_text p then
      ⟨true, true, true, "Prefix match (" ++ pyIntStr p.length ++ " chars)"⟩
    else
      ⟨true, false, true,
        "VIOLATION pos " ++ pyIntStr (mismatchPos p current_user_text) ++
          ". current=" ++ pyIntStr current_user_text.length ++
          " prev=" ++ pyIntStr p.length⟩

/-! ### Synthesized completion envelope (`_completion`, `panel.py:339-354`) -/

/-- The JSON object `_completion(content, model)` serializes; `now` is the
wall clock in whole seconds (`int(time.time())`). -/
def _completion (content : String) (model : String) (now : Nat) : Json :=
  .obj
    [ ("id", .str ("panel-" ++ pyIntStr now))
    , ("object", .str "chat.completion")
    , ("created", .num (now : Int))
    , ("model", .str model)
    , ("choices", .arr
        [ .obj
            [ ("index", .num 0)
            , ("message", .obj [("role", .str "assistant"), ("content", .str content)])
            , ("finish_reason", .str "stop") ] ]) ]

/-- The bytes `_completion` returns. -/
def completionBytes (content model : String) (now : Nat) : String :=
  jsonDumps (_completion content model now)

/-- The `choices[0].message.content` field of a completion envelope. -/
def completionContent (j : Json) : Option Json :=
  match j with
  | .obj kvs =>
    match objGet kvs "choices" with
    | some (.arr (.obj c0 :: _)) =>
      match objGet c0 "message" with
      | some (.obj m) => objGet m "content"
      | _ => none
    | _ => none
  | _ => none

/-- The `choices[0].finish_reason` field of a completion envelope. -/
def completionFinishReason (j : Json) : Option Json :=
  match j with
  | .obj kvs =>
    match objGet kvs "choices" with
    | some (.arr (.obj c0 :: _)) => objGet c0 "finish_reason"
    | _ => none
  | _ => none

/-! ### Upstream call model (`_forward` / `_forward_streaming`,
`panel.py:188-204` and `241-336`) -/

/-- Outcome of one `urllib.request.urlopen` call against the backend.
`eventStream` carries the raw lines of a `text/event-stream` body (each
line as the iterator yields it, newline terminators included);
`buffered` is any other successful response, read whole.  `httpError` and
`netError` model the two exception arms. -/
inductive UpstreamResp where
| buffered (status : Nat) (body : String)
| eventStream (status : Nat) (lines : List String)
| httpError (code : Nat) (body : String) (reason : String)
| netError (reason : String)

/-- `_forward`: synchronous call, body read whole regardless of content
type (an event-stream body would be read as raw bytes). -/
def _forward (upstream : String → UpstreamResp) (raw : String) : Nat × String × String :=
  match upstream raw with
  | .buffered st body => (st, body, "")
  | .eventStream st lines => (st, String.join lines, "")
  | .httpError c b r => (c, b, "HTTP " ++ pyIntStr c ++ ": " ++ r)
  | .netError r => (502, jsonDumps (.obj [("error", .str r)]), r)

/-- `_read_json`: `json.loads` result kept only when it is a dict
(`panel.py:48-53`).  `parse` models `json.loads` itself. -/
def _read_json (parse : String → Option Json) (raw : String) :
    Option (List (String × Json)) :=
  match parse raw with
  | some (.obj kvs) => some kvs
  | _ => none

/-- Key-level effect of `_enable_stream_request` (`panel.py:231-238`):
force `stream = true`, add `stream_options = {"include_usage": true}` if
absent. -/
def enableStreamKvs (kvs : List (String × Json)) : List (String × Json) :=
  let kvs1 := objSet kvs "stream" (.bool true)
  if objHas kvs1 "stream_options" then kvs1
  else objSet kvs1 "stream_options" (.obj [("include_usage", .bool true)])

/-- `_enable_stream_request` (`panel.py:231-238`): apply `enableStreamKvs`
and re-serialize; non-dict payloads pass through untouched. -/
def _enable_stream_request (parse : String → Option Json) (raw : String) : String :=
  match _read_json parse raw with
  | none => raw
  | some kvs => jsonDumps (.obj (enableStreamKvs kvs))

/-- `_stream_delta_from_obj` (`panel.py:207-228`): extract
`(id, model, finish_reason, usage, delta-or-message content)` from one
streamed event object.  A `finish_reason` that is absent, non-string or
empty leaves `""`; content is taken from `delta.content` first and
`message.content` second, only when a non-empty string. -/
def _stream_delta_from_obj (kvs : List (String × Json)) :
    String × String × String × Option (List (String × Json)) × String :=
  let cid := match objGet kvs "id" with | some v => pyStr v | none => ""
  let model := match objGet kvs "model" with | some v => pyStr v | none => ""
  let usage : Option (List (String × Json)) :=
    match objGet kvs "usage" with | some (.obj u) => some u | _ => none
  match objGet kvs "choices" with
  | some (.arr (c :: _)) =>
    let c0 : List (String × Json) := match c with | .obj o => o | _ => []
    let finish := match objGet c0 "finish_reason" with
      | some (.str s) => s
      | _ => ""
    let fromDelta : Option String := match objGet c0 "delta" with
      | some (.obj d) =>
        match objGet d "content" with
        | some (.str t) => if t = "" then none else some t
        | _ => none
      | _ => none
    match fromDelta with
    | some t => (cid, model, finish, usage, t)
    | none =>
      let fromMsg : Option String := match objGet c0 "message" with
        | some (.obj m) =>
          match objGet m "content" with
          | some (.str t) => if t = "" then none else some t
          | _ => none
        | _ => none
      match fromMsg with
      | some t => (cid, model, finish, usage, t)
      | none => (cid, model, finish, usage, "")
  | _ => (cid, model, "", usage, "")

/-- Accumulator of the streaming loop in `_forward_streaming`:
`full_text`, `rid`, `model`, `finish_reason`, `usage`. -/
structure SAcc where
  fullText : String
  rid : String
  model : String
  finishReason : String
  usage : Option (List (String × Json))
deriving Repr

/-- Initial accumulator (`panel.py:255-259`). -/
def initSAcc : SAcc := ⟨"", "", "", "", none⟩

/-- Fold one parsed event object into the accumulator
(`panel.py:310-321`). -/
def applyObj (acc : SAcc) (kvs : List (String × Json)) : SAcc :=
  let r := _stream_delta_from_obj kvs
  let cid := r.1
  let mdl := r.2.1
  let fr := r.2.2.1
  let u := r.2.2.2.1
  let delta := r.2.2.2.2
  { fullText := if delta = "" then acc.fullText else acc.fullText ++ delta
    rid := if cid = "" then acc.rid else cid
    model := if mdl = "" then acc.model else mdl
    finishReason := if fr = "" then acc.finishReason else fr
    usage := match u with | some d => some d | none => acc.usage }

/-- Process the `data:` payloads of one event block in order
(`panel.py:296-321`); the Bool reports whether the `[DONE]` terminator was
hit (which aborts the whole stream).  A payload that fails to parse, or
parses to a non-dict, is skipped. -/
def processPayloads (parse : String → Option Json) :
    List String → SAcc → SAcc × Bool
| [], acc => (acc, false)
| p :: rest, acc =>
  if p = "[DONE]" then (acc, true)
  else
    match parse p with
    | some (.obj kvs) => processPayloads parse rest (applyObj acc kvs)
    | _ => processPayloads parse rest acc

/-- `s[n:]` at the character level. -/
def dropChars (s : String) (n : Nat) : String := String.mk (s.data.drop n)

/-- Python `bytes.lstrip()` whitespace set. -/
def isPyWs (c : Char) : Bool :=
  c = ' ' || c = '\t' || c = '\n' || c = '\r' || c = (Char.ofNat 11) || c = (Char.ofNat 12)

/-- `payload.lstrip()`. -/
def lstripWs (s : String) : String := String.mk (s.data.dropWhile isPyWs)

/-- `raw_line.rstrip(b"\r\n")`. -/
def rstripCRLF (s : String) : String :=
  String.mk (((s.data.reverse).dropWhile (fun c => c = '\r' || c = '\n')).reverse)

/-- The `data:`-prefixed lines of one event block, prefix stripped and
left-stripped (`panel.py:291-295`). -/
def dataLinesOf (ev : List String) : List String :=
  (ev.filter (fun l => pyStartswith l "data:")).map (fun l => lstripWs (dropChars l 5))

/-- The SSE line loop of `_forward_streaming` (`panel.py:285-327`): group
lines into event blocks at blank lines, drop comment lines, feed each
block's payloads to `processPayloads`; stop at `[DONE]`; a leftover
unterminated block at stream end is discarded, as in the source. -/
def processLines (parse : String → Option Json) :
    List String → List String → SAcc → SAcc × Bool
| [], _, acc => (acc, false)
| l :: rest, ev, acc =>
  let line := rstripCRLF l
  if line = "" then
    if ev.isEmpty then processLines parse rest [] acc
    else
      let r := processPayloads parse (dataLinesOf ev) acc
      if r.2 then (r.1, true) else processLines parse rest [] r.1
  else if pyStartswith line ":" then processLines parse rest ev acc
  else processLines parse rest (ev ++ [line]) acc

/-- `str((_read_json(raw2) or {}).get("model", "panel"))`
(`panel.py:301`). -/
def reqModel (parse : String → Option Json) (raw2 : String) : String :=
  match _read_json parse raw2 with
  | some kvs =>
    match objGet kvs "model" with
    | some v => pyStr v
    | none => "panel"
  | none => "panel"

/-- Model name chosen for the synthesized envelope: the accumulated model
if any; otherwise the request's model on a `[DONE]` termination
(`panel.py:299-302`) and the literal `"panel"` on a bare stream end
(`panel.py:328`). -/
def relayModelName (parse : String → Option Json) (raw2 : String)
    (acc : SAcc) (done : Bool) : String :=
  if acc.model = "" then (if done then reqModel parse raw2 else "panel") else acc.model

/-- `_forward_streaming` (`panel.py:241-336`), with the hub/pending side
effects of `broadcast_delta` omitted (they do not affect the returned
triple): force streaming on, relay a true event stream into a synthesized
completion, pass anything else through. -/
def _forward_streaming (parse : String → Option Json)
    (upstream : String → UpstreamResp) (now : Nat) (raw : String) :
    Nat × String × String :=
  let raw2 := _enable_stream_request parse raw
  match upstream raw2 with
  | .buffered st body => (st, body, "")
  | .eventStream st lines =>
    let r := processLines parse lines [] initSAcc
    (st, completionBytes r.1.fullText (relayModelName parse raw2 r.1 r.2) now, "")
  | .httpError c b r => (c, b, "HTTP " ++ pyIntStr c ++ ": " ++ r)
  | .netError r => (502, jsonDumps (.obj [("error", .str r)]), r)

/-! ### Specification-side view of the streamed deltas (used to state C3:
the list of non-empty content deltas, in arrival order, before the
terminator) -/

/-- Non-empty content deltas contributed by one event block's payloads,
cut off at `[DONE]`. -/
def deltasOfPayloads (parse : String → Option Json) : List String → List String
| [] => []
| p :: rest =>
  if p = "[DONE]" then []
  else
    match parse p with
    | some (.obj kvs) =>
      let d := (_stream_delta_from_obj kvs).2.2.2.2
      (if d = "" then [] else [d]) ++ deltasOfPayloads parse rest
    | _ => deltasOfPayloads parse rest

/-- Whether a payload list contains the `[DONE]` terminator (before which
all deltas count). -/
def doneInPayloads : List String → Bool
| [] => false
| p :: rest => if p = "[DONE]" then true else doneInPayloads rest

/-- All non-empty content deltas of the whole line stream, in arrival
order, up to the terminator. -/
def deltasOfLines (parse : String → Option Json) :
    List String → List String → List String
| [], _ => []
| l :: rest, ev =>
  let line := rstripCRLF l
  if line = "" then
    if ev.isEmpty then deltasOfLines parse rest []
    else
      let dls := dataLinesOf ev
      deltasOfPayloads parse dls ++
        (if doneInPayloads dls then [] else deltasOfLines parse rest [])
  else if pyStartswith line ":" then deltasOfLines parse rest ev
  else deltasOfLines parse rest (ev ++ [line])

/-- Concatenation of a list of strings. -/
def sjoin : List String → String
| [] => ""
| s :: rest => s ++ sjoin rest

/-! ### Decisions and the gated proxy path (`_proxy_request`,
`panel.py:748-919`) -/

/-- The `Decision` dataclass (`panel.py:361-366`). -/
structure Decision where
  action : String
  message : String
  raw_request : Option String
  raw_response : Option String
deriving Repr, DecidableEq

/-- Python truthiness of an optional bytes value (`dec.raw_request` is
either `None` or a non-empty/possibly-empty bytes object). -/
def truthy : Option String → Bool
| none => false
| some s => !s.isEmpty

/-- The three configuration flags `_proxy_request` consults
(`settings.py` / `panel.py:763,794,861`). -/
structure Cfg where
  firewall_enabled : Bool
  auto_approve : Bool
  stream_to_panel : Bool
deriving Repr, DecidableEq

/-- Status, body and error note of one handled exchange. -/
structure ProxyResult where
  status : Nat
  body : String
  error : String
deriving Repr, DecidableEq

/-- The decision-and-forward core of `_proxy_request`
(`panel.py:763-864`).  The two response-stage branches of the source
(streaming, lines 794-827, and synchronous, lines 828-859) apply the same
decision logic to the forwarded result, so they are folded into one here;
`reqDec` and `respDec` are the decisions the two `event.wait()` calls
observe.  Registry/index/hub bookkeeping and the trailing ledger write are
modelled separately. -/
def _proxy_request (cfg : Cfg) (parse : String → Option Json)
    (upstream : String → UpstreamResp) (now : Nat) (raw_req : String)
    (reqDec respDec : Decision) : ProxyResult :=
  if cfg.firewall_enabled && !cfg.auto_approve then
    if reqDec.action = "reject" then
      ⟨200, completionBytes reqDec.message "panel-reject" now, "rejected_request"⟩
    else
      let raw_sent :=
        if reqDec.action = "edit_request" && truthy reqDec.raw_request then
          reqDec.raw_request.getD raw_req
        else raw_req
      let fwd :=
        if cfg.stream_to_panel then _forward_streaming parse upstream now raw_sent
        else _forward upstream raw_sent
      if respDec.action = "reject" then
        ⟨200, completionBytes respDec.message "panel-reject" now, "rejected_response"⟩
      else if (respDec.action = "edit_response" || respDec.action = "inject_response")
          && truthy respDec.raw_response then
        ⟨200, respDec.raw_response.getD "", "edited_response"⟩
      else
        ⟨fwd.1, fwd.2.1, fwd.2.2⟩
  else
    let fwd :=
      if cfg.stream_to_panel then _forward_streaming parse upstream now raw_req
      else _forward upstream raw_req
    ⟨fwd.1, fwd.2.1, fwd.2.2⟩

/-- An approve decision as issued by `POST /pending/{id}/approve`. -/
def approveDecision : Decision := ⟨"approve", "", none, none⟩

/-! ### The pending-decision release protocol (`_pending_decide`,
`panel.py:726-746`, and the waiter at `panel.py:778-781`).

One gated stage is a cell holding: whether the item is still in
`STATE.pending`, its mutable `Decision`, and its `threading.Event`.  The
interleaving of decision calls and the waiting gateway worker is modelled
by applying these operations in an arbitrary order; the waiter removes the
cell only after the event is set (`event.wait()` returned). -/
structure PendingCell where
  present : Bool
  decision : Decision
  eventSet : Bool
deriving Repr, DecidableEq

/-- A freshly registered item: in the registry, decision `hold`, event
unset (`panel.py:361-366,764-777`). -/
def initialPending : PendingCell :=
  ⟨true, ⟨"hold", "", none, none⟩, false⟩

/-- `_pending_decide(pid, action, message, raw_request, raw_response)`:
a lookup miss is a silent no-op; otherwise the decision fields are
overwritten (empty strings leave the old values) and the event is set.
The action is overwritten unconditionally — there is no check that the
item is still in the `hold` state. -/
def _pending_decide (s : PendingCell) (action message raw_request raw_response : String) :
    PendingCell :=
  if s.present then
    { present := s.present
      decision :=
        { action := action
          message := if message = "" then s.decision.message else message
          raw_request := if raw_request = "" then s.decision.raw_request else some raw_request
          raw_response := if raw_response = "" then s.decision.raw_response else some raw_response }
      eventSet := true }
  else s

/-- The gateway worker's removal step after `event.wait()` returns:
`STATE.pending.pop(req_id, None)` (`panel.py:779-780`); the decision is
read afterwards. -/
def waiterRemove (s : PendingCell) : PendingCell := { s with present := false }

/-! ### Turn ledger (`State.write_turn`, `panel.py:438-442`) -/

/-- The ledger file `turns.jsonl` as the list of its lines. -/
abbrev Ledger := List String

/-- `State.write_turn`: serialize one resolved turn and append it as one
line; existing lines are untouched (`open(..., "a")`).  The serialization
of a `TurnItem` is abstracted as `serialize` (its JSON details play no
role in any claim). -/
def write_turn {α : Type} (serialize : α → String) (ledger : Ledger) (item : α) : Ledger :=
  ledger ++ [serialize item]

/-- The ledger produced by a run of resolved exchanges, oldest first. -/
def ledgerAfter {α : Type} (serialize : α → String) (items : List α) : Ledger :=
  items.foldl (write_turn serialize) []

/-! ### Event broadcast hub (`State.broadcast` / `State.sse_unregister`,
`panel.py:413-436`) -/

/-- One registered observer: its identity, whether its queue accepts a
non-blocking put (a dead client's queue raises), and the messages
enqueued so far. -/
structure Client where
  cid : Nat
  accepts : Bool
  msgs : List String
deriving Repr, DecidableEq

/-- `State.broadcast(payload)`: serialize once, non-blocking enqueue to
every registered queue in order, then prune the queues that failed. -/
def broadcast (clients : List Client) (payload : Json) : List Client :=
  let msg := jsonDumps payload
  (clients.map (fun c => if c.accepts then { c with msgs := c.msgs ++ [msg] } else c)).filter
    (fun c => c.accepts)

/-- `State.sse_unregister(q)`: remove the first occurrence of the queue,
if registered. -/
def sse_unregister (clients : List Client) (q : Nat) : List Client :=
  match clients with
  | [] => []
  | c :: rest => if c.cid = q then rest else c :: sse_unregister rest q

/-! ## Helper lemmas -/

theorem mismatchAux_le (a : List Char) : ∀ b, mismatchAux a b ≤ min a.length b.length := by
  induction a with
  | nil => intro b; simp [mismatchAux]
  | cons x xs ih =>
    intro b
    cases b with
    | nil => simp [mismatchAux]
    | cons y ys =>
      by_cases h : x = y
      · have := ih ys
        simp only [mismatchAux, h, if_pos, List.length_cons]
        omega
      · simp [mismatchAux, h]

theorem mismatchAux_eq_before (a : List Char) :
    ∀ b j, j < mismatchAux a b → a[j]? = b[j]? := by
  induction a with
  | nil => intro b j hj; simp [mismatchAux] at hj
  | cons x xs ih =>
    intro b j hj
    cases b with
    | nil => simp [mismatchAux] at hj
    | cons y ys =>
      by_cases h : x = y
      · simp only [mismatchAux, h, if_pos] at hj
        cases j with
        | zero => simp [h]
        | succ j => simpa using ih ys j (by omega)
      · simp [mismatchAux, h] at hj

theorem mismatchAux_ne_at (a : List Char) :
    ∀ b, mismatchAux a b < min a.length b.length →
      a[mismatchAux a b]? ≠ b[mismatchAux a b]? := by
  induction a with
  | nil => intro b h; simp at h
  | cons x xs ih =>
    intro b h
    cases b with
    | nil => simp at h
    | cons y ys =>
      by_cases hxy : x = y
      · simp only [mismatchAux, hxy, if_pos, List.length_cons] at h ⊢
        have := ih ys (by omega)
        simpa using this
      · simp [mismatchAux, hxy]

/-- C2: the continuity check always reports `verified`; with no previous
text it reports a match; otherwise it matches exactly when the current
user text starts with the previous text, and on a mismatch its detail
string reports the index of the first differing character (characterized
as such) together with both lengths; including the two concrete examples
from the specification. -/
theorem C2_continuity_check (prev : Option String) (cur p : String) :
    (_sst_check prev cur).verified = true ∧
    (_sst_check none cur).match' = true ∧
    ((_sst_check (some p) cur).match' = pyStartswith cur p) ∧
    (pyStartswith cur p = false →
      (_sst_check (some p) cur).detail =
        "VIOLATION pos " ++ pyIntStr (mismatchPos p cur) ++ ". current=" ++
          pyIntStr cur.length ++ " prev=" ++ pyIntStr p.length ∧
      mismatchPos p cur ≤ min p.length cur.length ∧
      (∀ j, j < mismatchPos p cur → p.data[j]? = cur.data[j]?) ∧
      (mismatchPos p cur < min p.length cur.length →
        p.data[mismatchPos p cur]? ≠ cur.data[mismatchPos p cur]?)) ∧
    (_sst_check (some "Hello world") "Hello world, I look").match' = true ∧
    ((_sst_check (some "Hello world") "Goodbye").match' = false ∧
      mismatchPos "Hello world" "Goodbye" = 0) := by
  refine ⟨?_, rfl, ?_, ?_, by decide, by decide⟩
  · cases prev with
    | none => rfl
    | some q => by_cases h : pyStartswith cur q <;> simp [_sst_check, h]
  · by_cases h : pyStartswith cur p <;> simp [_sst_check, h]
  · intro h
    refine ⟨by simp [_sst_check, h], ?_, ?_, ?_⟩
    · exact mismatchAux_le p.data cur.data
    · exact fun j hj => mismatchAux_eq_before p.data cur.data j hj
    · intro hlt
      exact mismatchAux_ne_at p.data cur.data hlt

/-- Witness for C2 at the specification's own example. -/
theorem C2_continuity_check_witness :
    (_sst_check (some "Hello world") "Goodbye").detail =
      "VIOLATION pos " ++ pyIntStr (mismatchPos "Hello world" "Goodbye") ++
        ". current=" ++ pyIntStr ("Goodbye" : String).length ++
        " prev=" ++ pyIntStr ("Hello world" : String).length :=
  ((C2_continuity_check (some "Hello world") "Goodbye" "Hello world").2.2.2.1 (by decide)).1

/-- Value of a little-endian decimal digit list. -/
def decodeDec : List Nat → Nat
| [] => 0
| d :: ds => d + 10 * decodeDec ds

theorem natDigitsAux_decode : ∀ fuel n, n ≤ fuel → decodeDec (natDigitsAux fuel n) = n := by
  intro fuel
  induction fuel with
  | zero => intro n hn; interval_cases n; rfl
  | succ fuel ih =>
    intro n hn
    cases n with
    | zero => rfl
    | succ m =>
      have hdiv : (m + 1) / 10 < m + 1 := Nat.div_lt_self (by omega) (by omega)
      have := ih ((m + 1) / 10) (by omega)
      simp only [natDigitsAux, decodeDec, this]
      omega

theorem natDigitsAux_lt10 : ∀ fuel n d, d ∈ natDigitsAux fuel n → d < 10 := by
  intro fuel
  induction fuel with
  | zero => intro n d hd; simp [natDigitsAux] at hd
  | succ fuel ih =>
    intro n d hd
    cases n with
    | zero => simp [natDigitsAux] at hd
    | succ m =>
      simp only [natDigitsAux, List.mem_cons] at hd
      rcases hd with h | h
      · omega
      · exact ih _ _ h

/-- Left inverse of `Nat.digitChar` on decimal digits. -/
def decCharVal (c : Char) : Nat := c.toNat - 48

theorem decCharVal_digitChar : ∀ d, d < 10 → decCharVal (Nat.digitChar d) = d := by decide

theorem map_digitChar_cancel : ∀ ds : List Nat, (∀ d ∈ ds, d < 10) →
    (ds.map Nat.digitChar).map decCharVal = ds := by
  intro ds
  induction ds with
  | nil => intro _; rfl
  | cons d ds ih =>
    intro h
    simp only [List.map_cons]
    rw [decCharVal_digitChar d (h d (List.mem_cons_self _ _)),
      ih fun x hx => h x (List.mem_cons_of_mem _ hx)]

theorem natDecDigits_inj_aux (n m : Nat)
    (hh : (natDecDigits n).reverse.map Nat.digitChar = (natDecDigits m).reverse.map Nat.digitChar) :
    n = m := by
  have h2 := congrArg (List.map decCharVal) hh
  unfold natDecDigits at h2
  rw [map_digitChar_cancel _ (fun d hd => natDigitsAux_lt10 n n d (List.mem_reverse.mp hd)),
    map_digitChar_cancel _ (fun d hd => natDigitsAux_lt10 m m d (List.mem_reverse.mp hd))] at h2
  have h3 : natDigitsAux n n = natDigitsAux m m := by
    have := congrArg List.reverse h2
    simpa using this
  have hn := natDigitsAux_decode n n (Nat.le_refl n)
  have hm := natDigitsAux_decode m m (Nat.le_refl m)
  rw [← hn, ← hm]
  exact congrArg decodeDec h3

theorem pyIntStr_zero_aux (m : Nat)
    (hh : ("0" : String).data = (natDecDigits m).reverse.map Nat.digitChar) : m = 0 := by
  have h2 := congrArg (List.map decCharVal) hh
  unfold natDecDigits at h2
  rw [map_digitChar_cancel _ (fun d hd => natDigitsAux_lt10 m m d (List.mem_reverse.mp hd))] at h2
  have h3 : (natDigitsAux m m).reverse = [0] := by
    rw [← h2]; rfl
  have h4 : natDigitsAux m m = [0] := by
    have := congrArg List.reverse h3
    simpa using this
  have hm := natDigitsAux_decode m m (Nat.le_refl m)
  rw [h4] at hm
  simpa [decodeDec] using hm.symm

theorem pyIntStr_injective (a b : Nat) (h : pyIntStr a = pyIntStr b) : a = b := by
  unfold pyIntStr at h
  by_cases ha : a = 0 <;> by_cases hb : b = 0
  · exact ha.trans hb.symm
  · rw [if_pos ha, if_neg hb] at h
    exact absurd (pyIntStr_zero_aux b (congrArg String.data h)) hb
  · rw [if_neg ha, if_pos hb] at h
    exact absurd (pyIntStr_zero_aux a (congrArg String.data h.symm)) ha
  · rw [if_neg ha, if_neg hb] at h
    exact natDecDigits_inj_aux a b (congrArg String.data h)

theorem ledgerAfter_eq_map {α : Type} (serialize : α → String) :
    ∀ (its : List α) (acc : Ledger),
      its.foldl (write_turn serialize) acc = acc ++ its.map serialize := by
  intro its
  induction its with
  | nil => intro acc; simp [ledgerAfter]
  | cons x xs ih =>
    intro acc
    simp only [List.foldl_cons, List.map_cons, ih, write_turn]
    simp [List.append_assoc]

theorem broadcast_mem_src (clients : List Client) (payload : Json) (c' : Client)
    (h : c' ∈ broadcast clients payload) :
    c'.accepts = true ∧ ∃ c ∈ clients, c'.cid = c.cid := by
  unfold broadcast at h
  have h2 := List.mem_filter.mp h
  refine ⟨by simpa using h2.2, ?_⟩
  obtain ⟨c, hc, heq⟩ := List.mem_map.mp h2.1
  refine ⟨c, hc, ?_⟩
  by_cases ha : c.accepts <;> simp [ha] at heq <;> rw [← heq]

theorem count_unregister (q : Nat) : ∀ clients : List Client,
    ((sse_unregister clients q).map Client.cid).count q =
      ((clients.map Client.cid).count q) - 1 := by
  intro clients
  induction clients with
  | nil => rfl
  | cons c rest ih =>
    by_cases h : c.cid = q
    · simp [sse_unregister, h, List.count_cons]
    · simp [sse_unregister, h, List.count_cons, ih]

/-- C8: the ledger file after `N` resolved exchanges holds exactly `N`
records, one per exchange in resolution order; a single `write_turn` only
appends (every existing line survives unchanged), so the records of an
earlier run are a stable prefix of any later state of the file — reopening
it finds them unchanged. -/
theorem C8_turn_ledger {α : Type} (serialize : α → String) (items more : List α)
    (ledger : Ledger) (item : α) :
    (ledgerAfter serialize items).length = items.length ∧
    ledgerAfter serialize items = items.map serialize ∧
    (write_turn serialize ledger item).take ledger.length = ledger ∧
    (write_turn serialize ledger item).length = ledger.length + 1 ∧
    (ledgerAfter serialize (items ++ more)).take items.length =
      ledgerAfter serialize items := by
  refine ⟨?_, ?_, ?_, by simp [write_turn], ?_⟩
  · simp [ledgerAfter, ledgerAfter_eq_map]
  · simp [ledgerAfter, ledgerAfter_eq_map]
  · simp [write_turn, List.take_left]
  · simp only [ledgerAfter, ledgerAfter_eq_map, List.map_append, List.nil_append]
    have hl : items.length = (items.map serialize).length := by simp
    rw [hl, List.take_left]

/-- C9: a broadcast enqueues the one serialized message to every
currently registered accepting observer (two consecutive broadcasts land
in publish order), every observer surviving a broadcast is one that
accepted (a dead observer is pruned by the pass it failed, so later
broadcasts cannot deliver to it), and after `sse_unregister` removes an
observer, no later broadcast delivers to its id. -/
theorem C9_broadcast_hub (clients : List Client) (p1 p2 : Json) (c : Client) (q : Nat) :
    (c ∈ clients → c.accepts = true →
      { c with msgs := c.msgs ++ [jsonDumps p1] } ∈ broadcast clients p1) ∧
    (c ∈ clients → c.accepts = true →
      { c with msgs := c.msgs ++ [jsonDumps p1, jsonDumps p2] } ∈
        broadcast (broadcast clients p1) p2) ∧
    (∀ c' ∈ broadcast clients p1, c'.accepts = true) ∧
    ((clients.map Client.cid).count q ≤ 1 →
      ∀ c' ∈ broadcast (sse_unregister clients q) p1, c'.cid ≠ q) := by
  have deliver : ∀ (cl : List Client) (p : Json) (d : Client), d ∈ cl → d.accepts = true →
      { d with msgs := d.msgs ++ [jsonDumps p] } ∈ broadcast cl p := by
    intro cl p d hd ha
    unfold broadcast
    refine List.mem_filter.mpr ⟨?_, by simpa using ha⟩
    exact List.mem_map.mpr ⟨d, hd, by rw [if_pos ha]⟩
  refine ⟨deliver clients p1 c, ?_, ?_, ?_⟩
  · intro hc ha
    have h1 := deliver clients p1 c hc ha
    have h2 := deliver (broadcast clients p1) p2 _ h1 (by simpa using ha)
    simp only [List.append_assoc, List.singleton_append] at h2
    exact h2
  · intro c' hc'
    exact (broadcast_mem_src clients p1 c' hc').1
  · intro hcount c' hc'
    obtain ⟨-, d, hd, hcid⟩ := broadcast_mem_src (sse_unregister clients q) p1 c' hc'
    intro hq
    have hdq : d.cid = q := by rw [← hcid, hq]
    have hmem : q ∈ (sse_unregister clients q).map Client.cid :=
      List.mem_map.mpr ⟨d, hd, hdq⟩
    have hpos := List.count_pos_iff.mpr hmem
    have := count_unregister q clients
    omega

/-- Witness for C9 with three registered observers, one of them dead. -/
theorem C9_broadcast_hub_witness :
    (⟨1, true, ["m0"]⟩ : Client) ∈ [⟨1, true, ["m0"]⟩, ⟨2, false, []⟩, ⟨3, true, []⟩] ∧
    ({ (⟨1, true, ["m0"]⟩ : Client) with
        msgs := ["m0"] ++ [jsonDumps (.str "a"), jsonDumps (.str "b")] } ∈
      broadcast (broadcast [⟨1, true, ["m0"]⟩, ⟨2, false, []⟩, ⟨3, true, []⟩] (.str "a"))
        (.str "b")) ∧
    (([⟨1, true, ["m0"]⟩, ⟨2, false, []⟩, ⟨3, true, []⟩].map Client.cid).count 3 ≤ 1 ∧
      ∀ c' ∈ broadcast (sse_unregister [⟨1, true, ["m0"]⟩, ⟨2, false, []⟩, ⟨3, true, []⟩] 3)
          (.str "a"), c'.cid ≠ 3) :=
  ⟨by decide,
   (C9_broadcast_hub [⟨1, true, ["m0"]⟩, ⟨2, false, []⟩, ⟨3, true, []⟩] (.str "a") (.str "b")
      ⟨1, true, ["m0"]⟩ 3).2.1 (by decide) rfl,
   by decide,
   (C9_broadcast_hub [⟨1, true, ["m0"]⟩, ⟨2, false, []⟩, ⟨3, true, []⟩] (.str "a") (.str "b")
      ⟨1, true, ["m0"]⟩ 3).2.2.2 (by decide)⟩

/-- C1 counterexample: a second decision call that lands after the release
(`event.set()`) but before the gateway worker's `pop` still finds the item
in the registry, so it is not a no-op — it overwrites the action, and the
waiter (which reads the decision only after removing the item) observes
the second call's outcome, not the first's. -/
theorem C1_counterexample :
    (_pending_decide initialPending "reject" "no" "" "").decision.action = "reject" ∧
    (_pending_decide initialPending "reject" "no" "" "").eventSet = true ∧
    _pending_decide (_pending_decide initialPending "reject" "no" "" "")
        "approve" "" "" "" ≠
      _pending_decide initialPending "reject" "no" "" "" ∧
    (waiterRemove (_pending_decide (_pending_decide initialPending "reject" "no" "" "")
        "approve" "" "" "")).decision.action = "approve" := by
  refine ⟨rfl, rfl, ?_, rfl⟩
  decide

/-- C1 amended: the first decision call on a freshly registered item
transitions its action from `hold` to the requested terminal action and
sets the single-fire event (waking the one waiter); a decision call made
after the gateway worker has removed the item from the registry is a
no-op.  (A further call arriving in the window between release and
removal, however, overwrites the outcome — see the counterexample.) -/
theorem C1_single_fire_amended (s : PendingCell) (a m rr rp : String)
    (h : s.present = false) :
    _pending_decide s a m rr rp = s ∧
    (_pending_decide initialPending a m rr rp).decision.action = a ∧
    (_pending_decide initialPending a m rr rp).eventSet = true ∧
    (waiterRemove s).present = false := by
  refine ⟨?_, rfl, rfl, rfl⟩
  simp [_pending_decide, h]

/-- Witness for C1: after the waiter's removal, a further decision call
changes nothing. -/
theorem C1_single_fire_amended_witness :
    _pending_decide (waiterRemove (_pending_decide initialPending "reject" "no" "" ""))
        "approve" "" "" "" =
      waiterRemove (_pending_decide initialPending "reject" "no" "" "") ∧
    (_pending_decide initialPending "edit_request" "" "x" "").decision.action =
      "edit_request" :=
  ⟨(C1_single_fire_amended
      (waiterRemove (_pending_decide initialPending "reject" "no" "" ""))
      "approve" "" "" "" (by decide)).1,
   (C1_single_fire_amended
      (waiterRemove (_pending_decide initialPending "reject" "no" "" ""))
      "edit_request" "" "x" "" (by decide)).2.1⟩

/-- An exchange as the gateway receives it: arrival wall-clock milliseconds
plus the raw request bytes.  The correlation id `_proxy_request` mints
depends on the arrival time only (`panel.py:754`). -/
def exchangeReqId (e : Nat × String) : String := mkReqId e.1

/-- C7 counterexample: two distinct exchanges arriving in the same
millisecond receive the same time-derived correlation id. -/
theorem C7_counterexample :
    ((1712000, "a") : Nat × String) ≠ (1712000, "b") ∧
    exchangeReqId (1712000, "a") = exchangeReqId (1712000, "b") :=
  ⟨by decide, rfl⟩

/-- C7 amended: correlation ids of two exchanges are distinct exactly when
their arrival milliseconds are distinct — the decimal rendering is
injective, but exchanges sharing an arrival millisecond share an id. -/
theorem C7_reqid_distinct_iff (t1 t2 : Nat) : mkReqId t1 = mkReqId t2 ↔ t1 = t2 :=
  ⟨pyIntStr_injective t1 t2, fun h => by rw [h]⟩

/-- C5: with gating enabled and auto-approve off, a request-stage `reject`
decision carrying message `"no"` makes the gateway return status 200 with
the synthesized completion whose message content is exactly `"no"`; the
result is the same for every backend (`upstream2` arbitrary), i.e. no
backend call is issued for the exchange. -/
theorem C5_reject_request (cfg : Cfg) (parse : String → Option Json)
    (upstream : String → UpstreamResp) (now : Nat) (raw : String)
    (reqDec respDec : Decision)
    (hfw : cfg.firewall_enabled = true) (hap : cfg.auto_approve = false)
    (hact : reqDec.action = "reject") (hmsg : reqDec.message = "no") :
    _proxy_request cfg parse upstream now raw reqDec respDec =
      ⟨200, completionBytes "no" "panel-reject" now, "rejected_request"⟩ ∧
    (∀ upstream2, _proxy_request cfg parse upstream2 now raw reqDec respDec =
      _proxy_request cfg parse upstream now raw reqDec respDec) ∧
    completionContent (_completion "no" "panel-reject" now) = some (.str "no") := by
  have key : ∀ u : String → UpstreamResp,
      _proxy_request cfg parse u now raw reqDec respDec =
        ⟨200, completionBytes "no" "panel-reject" now, "rejected_request"⟩ := by
    intro u
    unfold _proxy_request
    simp [hfw, hap, hact, hmsg]
  exact ⟨key upstream, fun u2 => (key u2).trans (key upstream).symm, rfl⟩

/-- Witness for C5 at a concrete configuration and decision. -/
theorem C5_reject_request_witness :
    _proxy_request ⟨true, false, false⟩ (fun _ => none)
        (fun _ => .buffered 200 "backend") 7 "req" ⟨"reject", "no", none, none⟩
        ⟨"hold", "", none, none⟩ =
      ⟨200, completionBytes "no" "panel-reject" 7, "rejected_request"⟩ :=
  (C5_reject_request ⟨true, false, false⟩ (fun _ => none)
    (fun _ => .buffered 200 "backend") 7 "req" ⟨"reject", "no", none, none⟩
    ⟨"hold", "", none, none⟩ rfl rfl rfl rfl).1

/-- C10: an `edit_request` decision without replacement bytes (absent or
empty) and an `edit_response`/`inject_response` decision without
replacement bytes behave exactly like `approve`: the original request
bytes are forwarded and the forwarded response is returned unchanged. -/
theorem C10_empty_edit_is_approve (cfg : Cfg) (parse : String → Option Json)
    (upstream : String → UpstreamResp) (now : Nat) (raw : String)
    (reqDec respDec : Decision)
    (h1 : reqDec.action = "edit_request") (h2 : truthy reqDec.raw_request = false)
    (h3 : respDec.action = "edit_response" ∨ respDec.action = "inject_response")
    (h4 : truthy respDec.raw_response = false) :
    _proxy_request cfg parse upstream now raw reqDec respDec =
      _proxy_request cfg parse upstream now raw approveDecision approveDecision := by
  unfold _proxy_request approveDecision
  rcases h3 with h3 | h3 <;> simp [h1, h2, h3, h4]

/-- Witness for C10: empty replacement bytes (`Some ""` and `none`). -/
theorem C10_empty_edit_is_approve_witness :
    _proxy_request ⟨true, false, false⟩ (fun _ => none)
        (fun _ => .buffered 201 "body") 7 "req"
        ⟨"edit_request", "", none, none⟩ ⟨"edit_response", "", none, some ""⟩ =
      _proxy_request ⟨true, false, false⟩ (fun _ => none)
        (fun _ => .buffered 201 "body") 7 "req" approveDecision approveDecision :=
  C10_empty_edit_is_approve ⟨true, false, false⟩ (fun _ => none)
    (fun _ => .buffered 201 "body") 7 "req"
    ⟨"edit_request", "", none, none⟩ ⟨"edit_response", "", none, some ""⟩
    rfl rfl (Or.inl rfl) rfl

theorem sjoin_append : ∀ a b : List String, sjoin (a ++ b) = sjoin a ++ sjoin b := by
  intro a b
  induction a with
  | nil => simp [sjoin]
  | cons x xs ih => simp [sjoin, ih, String.append_assoc]

theorem applyObj_fullText (acc : SAcc) (kvs : List (String × Json)) :
    (applyObj acc kvs).fullText =
      acc.fullText ++ (_stream_delta_from_obj kvs).2.2.2.2 := by
  unfold applyObj
  by_cases h : (_stream_delta_from_obj kvs).2.2.2.2 = "" <;> simp [h]

theorem processPayloads_spec (parse : String → Option Json) : ∀ (ps : List String) (acc : SAcc),
    (processPayloads parse ps acc).1.fullText =
      acc.fullText ++ sjoin (deltasOfPayloads parse ps) ∧
    (processPayloads parse ps acc).2 = doneInPayloads ps := by
  intro ps
  induction ps with
  | nil => intro acc; simp [processPayloads, deltasOfPayloads, doneInPayloads, sjoin]
  | cons p rest ih =>
    intro acc
    by_cases hd : p = "[DONE]"
    · simp [processPayloads, deltasOfPayloads, doneInPayloads, hd, sjoin]
    · cases hp : parse p with
      | none => simpa [processPayloads, deltasOfPayloads, doneInPayloads, hd, hp] using ih acc
      | some j =>
        cases j with
        | obj kvs =>
          have hrec := ih (applyObj acc kvs)
          by_cases hdd : (_stream_delta_from_obj kvs).2.2.2.2 = "" <;>
            simp [processPayloads, deltasOfPayloads, doneInPayloads, hd, hp, hrec.1, hrec.2,
              applyObj_fullText, hdd, sjoin, sjoin_append, String.append_assoc]
        | null =>
          simpa [processPayloads, deltasOfPayloads, doneInPayloads, hd, hp] using ih acc
        | bool b =>
          simpa [processPayloads, deltasOfPayloads, doneInPayloads, hd, hp] using ih acc
        | num n =>
          simpa [processPayloads, deltasOfPayloads, doneInPayloads, hd, hp] using ih acc
        | str s =>
          simpa [processPayloads, deltasOfPayloads, doneInPayloads, hd, hp] using ih acc
        | arr xs =>
          simpa [processPayloads, deltasOfPayloads, doneInPayloads, hd, hp] using ih acc

theorem processLines_fullText (parse : String → Option Json) :
    ∀ (lines ev : List String) (acc : SAcc),
      (processLines parse lines ev acc).1.fullText =
        acc.fullText ++ sjoin (deltasOfLines parse lines ev) := by
  intro lines
  induction lines with
  | nil => intro ev acc; simp [processLines, deltasOfLines, sjoin]
  | cons l rest ih =>
    intro ev acc
    by_cases hb : rstripCRLF l = ""
    · by_cases hev : ev.isEmpty
      · simp [processLines, deltasOfLines, hb, hev, ih]
      · have hps := processPayloads_spec parse (dataLinesOf ev) acc
        by_cases hdone : doneInPayloads (dataLinesOf ev)
        · simp [processLines, deltasOfLines, hb, hev, hps.1, hps.2, hdone, sjoin_append, sjoin]
        · simp [processLines, deltasOfLines, hb, hev, hps.1, hps.2, hdone, ih, sjoin_append,
            String.append_assoc]
    · by_cases hc : pyStartswith (rstripCRLF l) ":"
      · simp [processLines, deltasOfLines, hb, hc, ih]
      · simp [processLines, deltasOfLines, hb, hc, ih]

theorem objGet_objSet_self (k : String) (v : Json) :
    ∀ kvs, objGet (objSet kvs k v) k = some v := by
  intro kvs
  induction kvs with
  | nil => simp [objSet, objGet]
  | cons kv rest ih =>
    by_cases h : kv.1 = k <;> simp [objSet, objGet, h, ih]

theorem objGet_objSet_other (k k' : String) (v : Json) (h : k' ≠ k) :
    ∀ kvs, objGet (objSet kvs k v) k' = objGet kvs k' := by
  intro kvs
  induction kvs with
  | nil => simp [objSet, objGet, Ne.symm h]
  | cons kv rest ih =>
    by_cases h1 : kv.1 = k
    · simp [objSet, objGet, h1, Ne.symm h, ih]
    · by_cases h2 : kv.1 = k' <;> simp [objSet, objGet, h1, h2, h, Ne.symm h, ih]

theorem enableStreamKvs_stream (kvs : List (String × Json)) :
    objGet (enableStreamKvs kvs) "stream" = some (.bool true) := by
  unfold enableStreamKvs
  by_cases h : objHas (objSet kvs "stream" (.bool true)) "stream_options"
  · simp [h, objGet_objSet_self]
  · simp [h, objGet_objSet_self, objGet_objSet_other]

theorem enableStreamKvs_other (kvs : List (String × Json)) (k : String)
    (h1 : k ≠ "stream") (h2 : k ≠ "stream_options") :
    objGet (enableStreamKvs kvs) k = objGet kvs k := by
  unfold enableStreamKvs
  by_cases h : objHas (objSet kvs "stream" (.bool true)) "stream_options"
  · simp [h, objGet_objSet_other _ _ _ h1]
  · simp [h, objGet_objSet_other _ _ _ h1, objGet_objSet_other _ _ _ h2]

theorem completionContent_completion (c m : String) (t : Nat) :
    completionContent (_completion c m t) = some (.str c) := by
  simp [completionContent, _completion, objGet]

theorem completionFinishReason_completion (c m : String) (t : Nat) :
    completionFinishReason (_completion c m t) = some (.str "stop") := by
  simp [completionFinishReason, _completion, objGet]

/-- C3: for an event-streamed backend exchange, the body `_forward_streaming`
returns is the serialized completion envelope whose message content is
exactly the concatenation, in arrival order, of every non-empty content
delta observed before the terminator; and a payload that fails to parse is
skipped without contributing to or aborting the accumulation. -/
theorem C3_stream_concat (parse : String → Option Json)
    (upstream : String → UpstreamResp) (now st : Nat) (raw : String)
    (lines : List String)
    (h : upstream (_enable_stream_request parse raw) = .eventStream st lines) :
    (_forward_streaming parse upstream now raw).2.1 =
      completionBytes (sjoin (deltasOfLines parse lines []))
        (relayModelName parse (_enable_stream_request parse raw)
          (processLines parse lines [] initSAcc).1
          (processLines parse lines [] initSAcc).2) now ∧
    completionContent
        (_completion (sjoin (deltasOfLines parse lines []))
          (relayModelName parse (_enable_stream_request parse raw)
            (processLines parse lines [] initSAcc).1
            (processLines parse lines [] initSAcc).2) now) =
      some (.str (sjoin (deltasOfLines parse lines []))) ∧
    (∀ p rest acc, parse p = none → p ≠ "[DONE]" →
      processPayloads parse (p :: rest) acc = processPayloads parse rest acc) := by
  refine ⟨?_, completionContent_completion _ _ _, ?_⟩
  · simp only [_forward_streaming, h]
    rw [processLines_fullText parse lines [] initSAcc]
    rfl
  · intro p rest acc hp hne
    simp [processPayloads, hp, hne]

/-- A concrete `json.loads` table for the sample stream below. -/
def sampleParse : String → Option Json := fun s =>
  if s = "p1" then
    some (.obj [("choices", .arr [.obj [("delta", .obj [("content", .str "Hello ")])]])])
  else if s = "p2" then
    some (.obj [("choices", .arr
      [.obj [("delta", .obj [("content", .str "world")]), ("finish_reason", .str "length")]])])
  else none

/-- A concrete backend event stream: two deltas, one comment line, one
malformed frame, and the terminator. -/
def sampleLines : List String :=
  ["data: p1\n", "\n", ": comment\n", "data: bad\n", "\n", "data: p2\n", "\n",
   "data: [DONE]\n", "\n"]

/-- Witness for C3 on the sample stream; its accumulated content is the
concatenation `"Hello world"` of the two deltas, malformed frame skipped. -/
theorem C3_stream_concat_witness :
    (_forward_streaming sampleParse (fun _ => .eventStream 200 sampleLines) 5 "r").2.1 =
      completionBytes (sjoin (deltasOfLines sampleParse sampleLines []))
        (relayModelName sampleParse (_enable_stream_request sampleParse "r")
          (processLines sampleParse sampleLines [] initSAcc).1
          (processLines sampleParse sampleLines [] initSAcc).2) 5 ∧
    sjoin (deltasOfLines sampleParse sampleLines []) = "Hello world" :=
  ⟨(C3_stream_concat sampleParse (fun _ => .eventStream 200 sampleLines) 5 200 "r"
      sampleLines rfl).1,
   by decide⟩

set_option maxRecDepth 8192 in
/-- C4 counterexample: on the sample stream the backend's events report
finish reason `"length"` (and the relay accumulates it), but the
synthesized envelope's `finish_reason` field is the hard-coded `"stop"` —
the envelope does not carry the finish reason accumulated from the
events. -/
theorem C4_counterexample :
    (processLines sampleParse sampleLines [] initSAcc).1.finishReason = "length" ∧
    (_forward_streaming sampleParse (fun _ => .eventStream 200 sampleLines) 5 "r").2.1 =
      completionBytes "Hello world" "panel" 5 ∧
    completionFinishReason (_completion "Hello world" "panel" 5) = some (.str "stop") ∧
    ("stop" : String) ≠ "length" := by
  exact ⟨by decide, by decide, completionFinishReason_completion _ _ _, by decide⟩

/-- C4 amended: the envelope synthesized at the terminal event is built
from the accumulated transcript and the model name, but its
`finish_reason` field is always the literal `"stop"`, regardless of the
finish reason accumulated from the backend's events (which is recorded
only in the pending item's parsed view). -/
theorem C4_envelope_amended (parse : String → Option Json)
    (upstream : String → UpstreamResp) (now st : Nat) (raw : String)
    (lines : List String)
    (h : upstream (_enable_stream_request parse raw) = .eventStream st lines) :
    (_forward_streaming parse upstream now raw).2.1 =
      completionBytes (processLines parse lines [] initSAcc).1.fullText
        (relayModelName parse (_enable_stream_request parse raw)
          (processLines parse lines [] initSAcc).1
          (processLines parse lines [] initSAcc).2) now ∧
    (∀ c m t, completionFinishReason (_completion c m t) = some (.str "stop")) ∧
    (∀ c m t, completionContent (_completion c m t) = some (.str c)) := by
  refine ⟨?_, fun c m t => completionFinishReason_completion c m t,
    fun c m t => completionContent_completion c m t⟩
  simp only [_forward_streaming, h]

/-- Witness for C4's amended statement on the sample stream. -/
theorem C4_envelope_amended_witness :
    (_forward_streaming sampleParse (fun _ => .eventStream 200 sampleLines) 5 "r").2.1 =
      completionBytes (processLines sampleParse sampleLines [] initSAcc).1.fullText
        (relayModelName sampleParse (_enable_stream_request sampleParse "r")
          (processLines sampleParse sampleLines [] initSAcc).1
          (processLines sampleParse sampleLines [] initSAcc).2) 5 :=
  (C4_envelope_amended sampleParse (fun _ => .eventStream 200 sampleLines) 5 200 "r"
    sampleLines rfl).1

set_option maxRecDepth 8192 in
/-- C6 counterexample: with gating disabled, auto-approve set and
streaming-to-panel enabled, an exchange whose backend response is a true
event stream returns the backend's status but not the backend's body —
the body is the synthesized completion envelope, not the raw stream bytes
the backend sent. -/
theorem C6_counterexample :
    _proxy_request ⟨false, true, true⟩ sampleParse
        (fun _ => .eventStream 200 sampleLines) 5 "r"
        approveDecision approveDecision =
      ⟨200, completionBytes "Hello world" "panel" 5, ""⟩ ∧
    completionBytes "Hello world" "panel" 5 ≠ String.join sampleLines := by
  exact ⟨by decide, by decide⟩

/-- C6 amended: with gating disabled or auto-approve set the gateway runs
the plain forward path on the original bytes.  With streaming disabled,
the request bytes reach the backend unmodified and the returned
status/body/error are exactly the backend's.  With streaming enabled, the
bytes sent differ from the original only in the injected `stream` flag and
`stream_options` usage-reporting entry (every other key is preserved); a
backend that does not actually stream has its status and body passed
through verbatim, while a true event stream yields the backend's status
with the synthesized completion envelope as body. -/
theorem C6_forward_amended (cfg : Cfg) (parse : String → Option Json)
    (upstream : String → UpstreamResp) (now : Nat) (raw : String)
    (d1 d2 : Decision)
    (hgate : cfg.firewall_enabled = false ∨ cfg.auto_approve = true) :
    (cfg.stream_to_panel = false →
      _proxy_request cfg parse upstream now raw d1 d2 =
        ⟨(_forward upstream raw).1, (_forward upstream raw).2.1,
          (_forward upstream raw).2.2⟩) ∧
    (∀ st b, upstream raw = .buffered st b → _forward upstream raw = (st, b, "")) ∧
    (cfg.stream_to_panel = true →
      _proxy_request cfg parse upstream now raw d1 d2 =
        ⟨(_forward_streaming parse upstream now raw).1,
          (_forward_streaming parse upstream now raw).2.1,
          (_forward_streaming parse upstream now raw).2.2⟩) ∧
    (∀ st b, upstream (_enable_stream_request parse raw) = .buffered st b →
      _forward_streaming parse upstream now raw = (st, b, "")) ∧
    (∀ kvs, parse raw = some (.obj kvs) →
      _enable_stream_request parse raw = jsonDumps (.obj (enableStreamKvs kvs)) ∧
      objGet (enableStreamKvs kvs) "stream" = some (.bool true) ∧
      ∀ k, k ≠ "stream" → k ≠ "stream_options" →
        objGet (enableStreamKvs kvs) k = objGet kvs k) := by
  have hoff : (cfg.firewall_enabled && !cfg.auto_approve) = false := by
    rcases hgate with h | h <;> simp [h]
  refine ⟨?_, ?_, ?_, ?_, ?_⟩
  · intro hs
    unfold _proxy_request
    simp [hoff, hs]
  · intro st b hb
    simp [_forward, hb]
  · intro hs
    unfold _proxy_request
    simp [hoff, hs]
  · intro st b hb
    simp only [_forward_streaming, hb]
  · intro kvs hkvs
    refine ⟨?_, enableStreamKvs_stream kvs, fun k h1 h2 => enableStreamKvs_other kvs k h1 h2⟩
    simp [_enable_stream_request, _read_json, hkvs]

/-- Witness for C6 with gating off: a buffered backend response passes
through verbatim and the stream-enabling rewrite preserves the request's
other keys. -/
theorem C6_forward_amended_witness :
    _proxy_request ⟨false, true, false⟩ (fun s => if s = "rq" then some (.obj [("model", .str "m")]) else none)
        (fun s => if s = "rq" then .buffered 200 "backendbody" else .netError "x") 5 "rq"
        approveDecision approveDecision =
      ⟨(_forward (fun s => if s = "rq" then .buffered 200 "backendbody" else .netError "x") "rq").1,
        (_forward (fun s => if s = "rq" then .buffered 200 "backendbody" else .netError "x") "rq").2.1,
        (_forward (fun s => if s = "rq" then .buffered 200 "backendbody" else .netError "x") "rq").2.2⟩ ∧
    objGet (enableStreamKvs [("model", .str "m")]) "model" = some (.str "m") :=
  ⟨((C6_forward_amended ⟨false, true, false⟩
      (fun s => if s = "rq" then some (.obj [("model", .str "m")]) else none)
      (fun s => if s = "rq" then .buffered 200 "backendbody" else .netError "x") 5 "rq"
      approveDecision approveDecision (Or.inl rfl)).1 rfl),
   (((C6_forward_amended ⟨false, true, false⟩
      (fun s => if s = "rq" then some (.obj [("model", .str "m")]) else none)
      (fun s => if s = "rq" then .buffered 200 "backendbody" else .netError "x") 5 "rq"
      approveDecision approveDecision (Or.inl rfl)).2.2.2.2 [("model", .str "m")]
      rfl).2.2 "model" (by decide) (by decide))⟩
